import Mathlib

/-!
Shallow embedding of the scraping-and-archiving pipeline of `tp.ipynb`
(classes `WebScraper`, `S3Uploader`, `DataCollector`).  HTML documents are
modelled as the structured data the code actually queries (cell texts,
anchors with optional href, images with optional src, tables with a class
attribute); the external HTTP transport and the storage client are modelled
as explicit function parameters, so each source method becomes a total,
executable Lean function.
-/

/-- An `<a>` element as queried by the code: its optional `href` attribute
and its raw text content (before `get_text(strip=True)`). -/
structure Anchor where
  href : Option String
  text : String
deriving DecidableEq

/-- An `<img>` element as queried by the code: its optional `src` attribute. -/
structure Img where
  src : Option String
deriving DecidableEq

/-- A `<tr>` element as queried by `extract_creature_data`: the raw texts of
its `<td>` cells and all anchors below it, in document order. -/
structure Row where
  cells : List String
  anchors : List Anchor
deriving DecidableEq

/-- A `<table>` element: its optional `class` attribute text, its rows, and
all images and anchors below it, in document order. -/
structure TableNode where
  classAttr : Option String
  rows : List Row
  imgs : List Img
  anchors : List Anchor
deriving DecidableEq

/-- A parsed page (`BeautifulSoup` result): its tables in document order. -/
structure Document where
  tables : List TableNode
deriving DecidableEq

/-- The dataclass `CreatureData`; `types` and `image_url` default to `None`
and are never filled in by `extract_creature_data`. -/
structure CreatureData where
  index : Nat
  name : String
  url : String
  types : Option (List String) := none
  image_url : Option String := none
deriving DecidableEq

/-- Characters stripped by Python's `str.strip()` / `get_text(strip=True)`. -/
def stripChars (l : List Char) : List Char :=
  ((l.dropWhile Char.isWhitespace).reverse.dropWhile Char.isWhitespace).reverse

/-- Model of BeautifulSoup's `get_text(strip=True)` on the stored raw text:
whitespace is stripped from both ends. -/
def get_text_strip (s : String) : String :=
  String.mk (stripChars s.data)

/-- Model of Python's `str.lower()` (ASCII range, which is all the code needs). -/
def pyLower (s : String) : String :=
  String.mk (s.data.map Char.toLower)

/-- Model of Python's `str.startswith`. -/
def pyStartsWith (s pre : String) : Bool :=
  pre.data.isPrefixOf s.data

/-- Model of `re.search(r"\d+", s)`: the first maximal run of decimal digits in `s`,
or `None` when `s` holds no digit. -/
def firstDigitRunAux : List Char → Option (List Char)
  | [] => none
  | c :: cs => if c.isDigit then some (c :: cs.takeWhile Char.isDigit) else firstDigitRunAux cs

/-- Model of `re.search(r"\d+", s)` followed by `.group()`. -/
def firstDigitRun (s : String) : Option String :=
  (firstDigitRunAux s.data).map String.mk

/-- Model of `int(...)` on a digit string. -/
def natOfDigits (s : String) : Nat :=
  s.data.foldl (fun acc c => 10 * acc + (c.toNat - 48)) 0

/-- Whether `pat` occurs as a contiguous run inside `l`. -/
def listInfixOf (pat : List Char) : List Char → Bool
  | [] => pat.isEmpty
  | c :: cs => List.isPrefixOf pat (c :: cs) || listInfixOf pat cs

/-- Substring containment, the effect of `re.search` for a literal pattern. -/
def containsSub (s pat : String) : Bool :=
  listInfixOf pat.data s.data

/-- Model of `re.compile(r"infobox|roundy").search`: the class text contains either
alternative as a substring. -/
def reInfoboxRoundy (s : String) : Bool :=
  containsSub s "infobox" || containsSub s "roundy"

/-- Model of `re.compile(r"(roundy|sortable)").search` on a class text. -/
def reRoundySortable (s : String) : Bool :=
  containsSub s "roundy" || containsSub s "sortable"

/-- BeautifulSoup attribute matching against a pattern: an element with no
such attribute never matches. -/
def matchClassAttr (p : String → Bool) (c : Option String) : Bool :=
  match c with
  | none => false
  | some s => p s

/-- Helper for `re.search("/wiki/.*_type", s)`: after a `/wiki/` occurrence,
look for `_type` with only non-newline characters consumed by `.*`. -/
def searchTypeTail : List Char → Bool
  | [] => false
  | c :: cs =>
    if List.isPrefixOf "_type".data (c :: cs) then true
    else if c = '\n' then false
    else searchTypeTail cs

/-- Model of `re.search("/wiki/.*_type", s)` viewed as a Bool: some position starts
`/wiki/`, followed (without crossing a newline) by `_type`. -/
def searchWikiType : List Char → Bool
  | [] => false
  | c :: cs =>
    (List.isPrefixOf "/wiki/".data (c :: cs) && searchTypeTail ((c :: cs).drop 6))
      || searchWikiType cs

/-- Model of the `find_all("a", href=re.compile("/wiki/.*_type"))` membership test: the
anchor has an `href` and the pattern matches it. -/
def matchHrefWikiType (h : Option String) : Bool :=
  match h with
  | none => false
  | some s => searchWikiType s.data

/-- Valid characters after the first one in a URL scheme. -/
def isSchemeChar (c : Char) : Bool :=
  c.isAlphanum || c = '+' || c = '-' || c = '.'

/-- Model of `urllib.parse` scheme splitting: `some (scheme, rest)` when the
URL starts with `scheme:` for a valid scheme name. -/
def schemeSplit (s : String) : Option (String × String) :=
  let l := s.data
  let pre := l.takeWhile (fun c => c ≠ ':')
  if decide (pre.length < l.length) && !pre.isEmpty && (pre.headD 'a').isAlpha
      && pre.all isSchemeChar then
    some (String.mk pre, String.mk (l.drop (pre.length + 1)))
  else none

/-- Model of `urllib.parse` netloc splitting on the part after the scheme:
`(netloc, remainder)`, with an empty netloc when the input does not start
with `//`. -/
def splitNetloc (s : String) : String × String :=
  if pyStartsWith s "//" then
    let l := (s.drop 2).data
    let nl := l.takeWhile (fun c => c ≠ '/' && c ≠ '?' && c ≠ '#')
    (String.mk nl, String.mk (l.drop nl.length))
  else ("", s)

/-- Model of `urlparse(u).path`: drop the scheme and netloc, cut at the
first query or fragment delimiter. -/
def urlparse_path (u : String) : String :=
  let rest := match schemeSplit u with
    | some sr => sr.2
    | none => u
  let pr := (splitNetloc rest).2
  String.mk (pr.data.takeWhile (fun c => c ≠ '?' && c ≠ '#'))

/-- The part of a path up to and including its last `/`. -/
def dirPart (p : String) : String :=
  String.mk (p.data.reverse.dropWhile (fun c => c ≠ '/')).reverse

/-- Model of `urllib.parse.urljoin` for the reference shapes this site
produces: absolute references, scheme-relative `//…`, path-absolute `/…`,
and plain relative references. -/
def urljoin (base url : String) : String :=
  if url.isEmpty then base
  else
    match schemeSplit url with
    | some _ => url
    | none =>
      let bscheme := match schemeSplit base with
        | some sr => sr.1
        | none => ""
      if pyStartsWith url "//" then bscheme ++ ":" ++ url
      else
        let brest := match schemeSplit base with
          | some sr => sr.2
          | none => base
        let bnet := (splitNetloc brest).1
        let bpath := urlparse_path base
        let root := bscheme ++ "://" ++ bnet
        if pyStartsWith url "/" then root ++ url
        else root ++ (if bpath.isEmpty then "/" ++ url else dirPart bpath ++ url)

/-- Model of `os.path.splitext` restricted to a basename: leading dots never
start an extension. -/
def splitextBase (base : List Char) : List Char × List Char :=
  let lead := base.takeWhile (fun c => c = '.')
  let rest := base.drop lead.length
  if rest.contains '.' then
    let extRev := rest.reverse.takeWhile (fun c => c ≠ '.')
    let extLen := extRev.length + 1
    (lead ++ rest.take (rest.length - extLen), rest.drop (rest.length - extLen))
  else (base, [])

/-- Model of `os.path.splitext` (posix separators). -/
def splitext (p : String) : String × String :=
  let l := p.data
  let revBase := l.reverse.takeWhile (fun c => c ≠ '/')
  let dir := l.take (l.length - revBase.length)
  let be := splitextBase revBase.reverse
  (String.mk (dir ++ be.1), String.mk be.2)

/-- Embedding of `WebScraper.extract_creature_data`: `None` for short rows, digit-free
first cells, or rows without an href-bearing anchor; otherwise the parsed
entity. -/
def extract_creature_data (base_url : String) (element : Row) : Option CreatureData :=
  let cells := element.cells
  if cells.length < 3 then none
  else
    match firstDigitRun (get_text_strip (cells.headD "")) with
    | none => none
    | some digits =>
      match element.anchors.find? (fun a => a.href.isSome) with
      | none => none
      | some link =>
        some { index := natOfDigits digits,
               name := get_text_strip link.text,
               url := urljoin base_url (link.href.getD "") }

/-- Outcome of one `put_object` call of the storage client: success, the
`NoCredentialsError` branch, or any other exception. -/
inductive PutOutcome
  | success
  | noCredentials
  | failure (msg : String)
deriving DecidableEq

/-- The request `S3Uploader.upload_image` hands to `put_object`. -/
structure PutRequest where
  bucket : String
  key : String
  body : List UInt8
  acl : String
  contentType : String
deriving DecidableEq

/-- The extension-to-content-type dict of `upload_image`. -/
def contentTypes : List (String × String) :=
  [(".jpg", "image/jpeg"), (".jpeg", "image/jpeg"),
   (".png", "image/png"), (".gif", "image/gif")]

/-- The request `upload_image` builds before calling `put_object`: key,
public-read ACL, and the content type looked up from the lower-cased
extension with `image/png` as the fallback. -/
def uploadRequest (bucket_name : String) (image_data : List UInt8)
    (filename : String) (pfx : String) : PutRequest :=
  let s3_key := pfx ++ filename
  let ext := pyLower (splitext filename).2
  let content_type := (contentTypes.lookup ext).getD "image/png"
  { bucket := bucket_name, key := s3_key, body := image_data,
    acl := "public-read", contentType := content_type }

/-- Embedding of `S3Uploader.upload_image`.  The storage client is the function `put`
from the request to its outcome; the result records the request that was
issued together with the returned value (`some url` on success, `none` on
`NoCredentialsError` and on every other client failure). -/
def upload_image (bucket_name : String) (put : PutRequest → PutOutcome)
    (image_data : List UInt8) (filename : String) (pfx : String) :
    PutRequest × Option String :=
  let s3_key := pfx ++ filename
  let req := uploadRequest bucket_name image_data filename pfx
  match put req with
  | PutOutcome.success =>
    (req, some ("https://" ++ bucket_name ++ ".s3.amazonaws.com/" ++ s3_key))
  | PutOutcome.noCredentials => (req, none)
  | PutOutcome.failure _ => (req, none)

/-- The external world as `DataCollector` sees it: fetching a detail page
(which may raise), downloading image bytes (which may raise), and the
storage client. -/
structure Env where
  detail : String → Except Unit Document
  download : String → Except String (List UInt8)
  put : PutRequest → PutOutcome

/-- Embedding of `DataCollector.find_creature_image_and_types`: on any fetch or parse
exception `(None, ["unknown"])`; with no infobox/roundy table `(None, [])`;
otherwise the first image's resolved src (kept `None` for a missing or
empty `src`, Python truthiness) and the type-link texts, stripped and
lower-cased, with `["unknown"]` substituted for an empty list. -/
def find_creature_image_and_types (env : Env) (url : String) :
    Option String × List String :=
  match env.detail url with
  | Except.error _ => (none, ["unknown"])
  | Except.ok soup =>
    match soup.tables.find? (fun t => matchClassAttr reInfoboxRoundy t.classAttr) with
    | none => (none, [])
    | some info_table =>
      let image_url : Option String :=
        match info_table.imgs.head? with
        | none => none
        | some img =>
          match img.src with
          | none => none
          | some src =>
            if src = "" then none
            else if pyStartsWith src "//" then some ("https:" ++ src)
            else some src
      let type_cells := info_table.anchors.filter (fun a => matchHrefWikiType a.href)
      let types := (type_cells.filter (fun t => get_text_strip t.text != "")).map
        (fun t => pyLower (get_text_strip t.text))
      (image_url, if types.isEmpty then ["unknown"] else types)

/-- Decidable equality on `Except`, so that concrete runs can be checked
with `decide`. -/
instance exceptDecEq {ε α : Type} [DecidableEq ε] [DecidableEq α] :
    DecidableEq (Except ε α) := fun x y =>
  match x, y with
  | Except.error a, Except.error b => decidable_of_iff (a = b) (by simp)
  | Except.ok a, Except.ok b => decidable_of_iff (a = b) (by simp)
  | Except.error _, Except.ok _ => isFalse (by simp)
  | Except.ok _, Except.error _ => isFalse (by simp)

/-- The hard-coded `base_url` of `DataCollector`. -/
def bulbapediaBase : String := "https://bulbapedia.bulbagarden.net"

/-- What happened to one visited row inside the `collect_data` loop. -/
inductive RowOutcome
  | skippedNoEntity
  | skippedNoImage
  | downloadFailed
  | uploadFailed
  | uploaded
deriving DecidableEq

/-- The two ways `collect_data` can fail: the listing fetch raising, and
`types[0]` on an empty list raising `IndexError`. -/
inductive RunError
  | fetchError
  | indexError
deriving DecidableEq

/-- Model of `f"{n:04d}"` for the non-negative indices the regex produces. -/
def pad4 (n : Nat) : String :=
  let s := toString n
  if s.length < 4 then String.mk (List.replicate (4 - s.length) '0') ++ s else s

/-- The body of the `for row in table.find_all("tr")` loop after the limit
check, as the outcome of visiting one row. -/
def process_row (bucket_name : String) (env : Env) (base_url : String)
    (row : Row) : Except RunError RowOutcome :=
  match extract_creature_data base_url row with
  | none => Except.ok RowOutcome.skippedNoEntity
  | some creature =>
    match find_creature_image_and_types env creature.url with
    | (none, _) => Except.ok RowOutcome.skippedNoImage
    | (some image_url, types) =>
      match types with
      | [] => Except.error RunError.indexError
      | t0 :: _ =>
        let pfx := "images/" ++ t0 ++ "/"
        let ext0 := (splitext (urlparse_path image_url)).2
        let ext := if ext0 = "" then ".png" else ext0
        let filename := pad4 creature.index ++ "_" ++ creature.name ++ ext
        match env.download image_url with
        | Except.error _ => Except.ok RowOutcome.downloadFailed
        | Except.ok image_data =>
          match (upload_image bucket_name env.put image_data filename pfx).2 with
          | some _ => Except.ok RowOutcome.uploaded
          | none => Except.ok RowOutcome.uploadFailed

/-- Observable counters of one `collect_data` run: rows visited, sleeps
performed, missing-image warnings, `upload_image` calls, the success count,
and whether the limit check fired. -/
structure RunStats where
  rowsVisited : Nat := 0
  sleeps : Nat := 0
  warnings : Nat := 0
  attempts : Nat := 0
  count : Nat := 0
  limitReached : Bool := false
deriving DecidableEq

/-- Effect of one visited row on the run counters.  The two `continue`
statements of the source skip the `time.sleep` at the end of the loop body,
so only rows that reach the download/upload stage add a sleep. -/
def updateStats (st : RunStats) : RowOutcome → RunStats
  | RowOutcome.skippedNoEntity =>
    { st with rowsVisited := st.rowsVisited + 1 }
  | RowOutcome.skippedNoImage =>
    { st with rowsVisited := st.rowsVisited + 1, warnings := st.warnings + 1 }
  | RowOutcome.downloadFailed =>
    { st with rowsVisited := st.rowsVisited + 1, sleeps := st.sleeps + 1 }
  | RowOutcome.uploadFailed =>
    { st with
      rowsVisited := st.rowsVisited + 1
      sleeps := st.sleeps + 1
      attempts := st.attempts + 1 }
  | RowOutcome.uploaded =>
    { st with
      rowsVisited := st.rowsVisited + 1
      sleeps := st.sleeps + 1
      attempts := st.attempts + 1
      count := st.count + 1 }

/-- The inner row loop of `collect_data`: the limit check runs before each
row and `return`s out of the whole run (recorded in `limitReached`). -/
def runRows (bucket_name : String) (env : Env) (limit : Nat) :
    List Row → RunStats → Except RunError RunStats
  | [], st => Except.ok st
  | row :: rest, st =>
    if limit ≤ st.count then Except.ok { st with limitReached := true }
    else
      match process_row bucket_name env bulbapediaBase row with
      | Except.error e => Except.error e
      | Except.ok out => runRows bucket_name env limit rest (updateStats st out)

/-- The outer table loop of `collect_data`: a fired limit check terminates
the entire run, not just the current table. -/
def runTables (bucket_name : String) (env : Env) (limit : Nat) :
    List TableNode → RunStats → Except RunError RunStats
  | [], st => Except.ok st
  | t :: rest, st =>
    match runRows bucket_name env limit t.rows st with
    | Except.error e => Except.error e
    | Except.ok st2 =>
      if st2.limitReached then Except.ok st2
      else runTables bucket_name env limit rest st2

/-- The tables `collect_data` selects from the listing page. -/
def selectedTables (doc : Document) : List TableNode :=
  doc.tables.filter (fun t => matchClassAttr reRoundySortable t.classAttr)

/-- Number of rows across a list of tables. -/
def totalRows (ts : List TableNode) : Nat :=
  (ts.map (fun t => t.rows.length)).sum

/-- Embedding of `DataCollector.collect_data`: fetch the listing (a raising fetch
propagates), select the roundy/sortable tables, and run the nested loops
starting from zeroed counters. -/
def collect_data (bucket_name : String) (env : Env)
    (listing : Except Unit Document) (limit : Nat) : Except RunError RunStats :=
  match listing with
  | Except.error _ => Except.error RunError.fetchError
  | Except.ok soup => runTables bucket_name env limit (selectedTables soup) {}

/-! ## Helper lemmas -/

/-- The regex `re.search(r"\d+", ...)` misses exactly when no character is a digit. -/
theorem firstDigitRunAux_eq_none_iff (l : List Char) :
    firstDigitRunAux l = none ↔ ∀ c ∈ l, ¬ c.isDigit := by
  induction l with
  | nil => simp [firstDigitRunAux]
  | cons c cs ih =>
    cases h : c.isDigit with
    | true => simp [firstDigitRunAux, h]
    | false => simp [firstDigitRunAux, h, ih]

/-- String-level version of `firstDigitRunAux_eq_none_iff`. -/
theorem firstDigitRun_eq_none_iff (s : String) :
    firstDigitRun s = none ↔ ∀ c ∈ s.data, ¬ c.isDigit := by
  simp [firstDigitRun, firstDigitRunAux_eq_none_iff]

/-! ## Claims -/

/-- Claim C4: `extract_creature_data` returns `None` exactly for rows with
fewer than 3 cells, rows whose first cell text holds no run of digits, and
rows without any href-bearing anchor. -/
theorem C4_extract_none_iff (base_url : String) (row : Row) :
    extract_creature_data base_url row = none ↔
      (row.cells.length < 3
        ∨ (∀ c ∈ (get_text_strip (row.cells.headD "")).data, ¬ c.isDigit)
        ∨ (∀ a ∈ row.anchors, a.href = none)) := by
  unfold extract_creature_data
  by_cases h3 : row.cells.length < 3
  · simp [h3]
  · rw [if_neg h3]
    cases hd : firstDigitRun (get_text_strip (row.cells.headD "")) with
    | none =>
      simp only [true_iff]
      exact Or.inr (Or.inl ((firstDigitRun_eq_none_iff _).mp hd))
    | some digits =>
      cases hf : row.anchors.find? (fun a => a.href.isSome) with
      | none =>
        simp only [true_iff]
        refine Or.inr (Or.inr fun a ha => ?_)
        exact Option.not_isSome_iff_eq_none.mp (List.find?_eq_none.mp hf a ha)
      | some link =>
        simp only [reduceCtorEq, false_iff]
        intro hor
        rcases hor with h | h | h
        · exact h3 h
        · rw [(firstDigitRun_eq_none_iff _).mpr h] at hd
          cases hd
        · have hmem := List.mem_of_find?_eq_some hf
          have hp := List.find?_some hf
          rw [h link hmem] at hp
          simp at hp

/-- Claim C8: for a row passing all three checks, the entity's index is the
integer value of the first digit run of the first cell, its name the link's
stripped text, and its url the href joined onto the base URL. -/
theorem C8_extract_fields (base_url : String) (row : Row) (digits : String)
    (link : Anchor) (target : String)
    (h3 : 3 ≤ row.cells.length)
    (hd : firstDigitRun (get_text_strip (row.cells.headD "")) = some digits)
    (hl : row.anchors.find? (fun a => a.href.isSome) = some link)
    (hh : link.href = some target) :
    extract_creature_data base_url row =
      some { index := natOfDigits digits, name := get_text_strip link.text,
             url := urljoin base_url target } := by
  unfold extract_creature_data
  rw [if_neg (by omega)]
  simp only [hd, hl, hh, Option.getD_some]

/-- The row of the spec's C8 test, in the document model: first cell text
`#0004`, a link to `/wiki/Foo` labelled `Foo`, three cells. -/
def wRowC8 : Row :=
  { cells := ["#0004", "Foo", "Type"],
    anchors := [{ href := some "/wiki/Foo", text := "Foo" }] }

/-- Witness for C8 at the spec's concrete row: index 4, name `Foo`,
detail URL `base + "/wiki/Foo"`. -/
theorem C8_extract_fields_witness :
    extract_creature_data bulbapediaBase wRowC8 =
      some { index := 4, name := "Foo",
             url := "https://bulbapedia.bulbagarden.net/wiki/Foo" } := by
  rw [C8_extract_fields bulbapediaBase wRowC8 "0004"
      { href := some "/wiki/Foo", text := "Foo" } "/wiki/Foo"
      (by decide) (by decide) (by decide) rfl]
  decide

/-- The first component of `upload_image` is always the request it built;
`put_object` is invoked exactly once on every call. -/
theorem upload_image_fst (bucket_name : String) (put : PutRequest → PutOutcome)
    (image_data : List UInt8) (filename pfx : String) :
    (upload_image bucket_name put image_data filename pfx).1 =
      uploadRequest bucket_name image_data filename pfx := by
  unfold upload_image
  cases h : put (uploadRequest bucket_name image_data filename pfx) <;> simp [h]

/-- Following the spec's words (§4.4 step 2): the fixed lookup table applied
to the lower-cased extension, with `image/png` for anything unrecognized. -/
def specContentType (filename : String) : String :=
  let e := pyLower (splitext filename).2
  if e = ".jpg" then "image/jpeg"
  else if e = ".jpeg" then "image/jpeg"
  else if e = ".png" then "image/png"
  else if e = ".gif" then "image/gif"
  else "image/png"

/-- The dict lookup of the source equals the spec's table, including the
case-insensitive match and the default fallback. -/
theorem uploadRequest_contentType (bucket_name : String) (image_data : List UInt8)
    (filename pfx : String) :
    (uploadRequest bucket_name image_data filename pfx).contentType =
      specContentType filename := by
  unfold uploadRequest specContentType contentTypes
  by_cases h1 : pyLower (splitext filename).2 = ".jpg"
  · simp [List.lookup, h1]
  · by_cases h2 : pyLower (splitext filename).2 = ".jpeg"
    · simp [List.lookup, h1, h2]
    · by_cases h3 : pyLower (splitext filename).2 = ".png"
      · simp [List.lookup, h1, h2, h3]
      · by_cases h4 : pyLower (splitext filename).2 = ".gif"
        · simp [List.lookup, h1, h2, h3, h4]
        · have e1 : (pyLower (splitext filename).2 == ".jpg") = false :=
            beq_eq_false_iff_ne.mpr h1
          have e2 : (pyLower (splitext filename).2 == ".jpeg") = false :=
            beq_eq_false_iff_ne.mpr h2
          have e3 : (pyLower (splitext filename).2 == ".png") = false :=
            beq_eq_false_iff_ne.mpr h3
          have e4 : (pyLower (splitext filename).2 == ".gif") = false :=
            beq_eq_false_iff_ne.mpr h4
          simp [List.lookup, h1, h2, h3, h4, e1, e2, e3, e4]

/-- Claim C7: on a successful upload, the issued content type follows the
spec's case-insensitive extension table, and the returned URL is exactly
`https://{bucket}.s3.amazonaws.com/{prefix}{filename}`. -/
theorem C7_upload_success (bucket_name : String) (put : PutRequest → PutOutcome)
    (image_data : List UInt8) (filename pfx u : String)
    (hs : (upload_image bucket_name put image_data filename pfx).2 = some u) :
    (upload_image bucket_name put image_data filename pfx).1.contentType =
        specContentType filename
    ∧ u = "https://" ++ bucket_name ++ ".s3.amazonaws.com/" ++ pfx ++ filename := by
  constructor
  · rw [upload_image_fst]
    exact uploadRequest_contentType bucket_name image_data filename pfx
  · unfold upload_image at hs
    cases h : put (uploadRequest bucket_name image_data filename pfx) with
    | success =>
      simp only [h] at hs
      rw [String.append_assoc]
      exact (Option.some.injEq _ _).mp hs.symm
    | noCredentials => simp [h] at hs
    | failure msg => simp [h] at hs

/-- Witness for C7 at the spec's test input `x.JPG`: the upload succeeds,
the selected content type is `image/jpeg`, and the URL has the stated
form. -/
theorem C7_upload_success_witness :
    (upload_image "b" (fun _ => PutOutcome.success) [] "x.JPG" "p/").1.contentType =
        specContentType "x.JPG"
    ∧ "https://b.s3.amazonaws.com/p/x.JPG" =
        "https://" ++ "b" ++ ".s3.amazonaws.com/" ++ "p/" ++ "x.JPG"
    ∧ specContentType "x.JPG" = "image/jpeg" := by
  have h := C7_upload_success "b" (fun _ => PutOutcome.success) [] "x.JPG" "p/"
    "https://b.s3.amazonaws.com/p/x.JPG" rfl
  exact ⟨h.1, h.2, by decide⟩

/-- Claim C9: `upload_image` is a total function (the model of "never
raises"); it yields a URL exactly when the storage client reports success,
so both `NoCredentialsError` and any other client failure turn into a
`None` result. -/
theorem C9_upload_total (bucket_name : String) (put : PutRequest → PutOutcome)
    (image_data : List UInt8) (filename pfx : String) :
    (upload_image bucket_name put image_data filename pfx).2.isSome = true ↔
      put (upload_image bucket_name put image_data filename pfx).1 =
        PutOutcome.success := by
  rw [upload_image_fst]
  unfold upload_image
  cases h : put (uploadRequest bucket_name image_data filename pfx) <;> simp [h]

/-- Whenever the extractor reports an image URL, its tag list is non-empty:
the `["unknown"]` substitution runs in every branch that can produce an
image. -/
theorem find_tags_ne_nil_of_image (env : Env) (url : String) :
    (find_creature_image_and_types env url).1.isSome = true →
      (find_creature_image_and_types env url).2 ≠ [] := by
  unfold find_creature_image_and_types
  cases hd : env.detail url with
  | error e =>
    simp only []
    intro h
    simp at h
  | ok soup =>
    simp only []
    cases hf : soup.tables.find? (fun t => matchClassAttr reInfoboxRoundy t.classAttr) with
    | none =>
      simp only []
      intro h
      simp at h
    | some t =>
      simp only []
      intro _
      cases he : ((t.anchors.filter (fun a => matchHrefWikiType a.href)).filter
          (fun a => get_text_strip a.text != "")).map
          (fun a => pyLower (get_text_strip a.text)) with
      | nil => simp [he]
      | cons x xs => simp [he]

/-- The `types[0]` access in the loop body can never raise: `process_row`
never reports the IndexError case. -/
theorem process_row_no_indexError (bucket_name : String) (env : Env)
    (base_url : String) (row : Row) :
    process_row bucket_name env base_url row ≠ Except.error RunError.indexError := by
  unfold process_row
  cases hex : extract_creature_data base_url row with
  | none => simp
  | some creature =>
    simp only []
    cases hfind : find_creature_image_and_types env creature.url with
    | mk iu ts =>
      cases iu with
      | none => simp
      | some s =>
        cases ts with
        | nil =>
          exfalso
          have h1 := find_tags_ne_nil_of_image env creature.url
          rw [hfind] at h1
          exact h1 rfl rfl
        | cons t0 trest =>
          simp only []
          cases hdl : env.download s with
          | error e => simp
          | ok image_data =>
            simp only []
            cases hup : (upload_image bucket_name env.put image_data
                (pad4 creature.index ++ "_" ++ creature.name ++
                  (if (splitext (urlparse_path s)).2 = "" then ".png"
                   else (splitext (urlparse_path s)).2))
                ("images/" ++ t0 ++ "/")).2 with
            | none => simp
            | some u => simp

/-- Claim C10: a non-`None` image URL from the detail extractor always comes
with a non-empty tag list, so the orchestrator's `tags[0]` prefix
computation, reached only behind the image check, never indexes an empty
sequence. -/
theorem C10_first_tag_safe (env : Env) (url bucket_name base_url : String)
    (row : Row) :
    ((find_creature_image_and_types env url).1.isSome = true →
      (find_creature_image_and_types env url).2 ≠ [])
    ∧ process_row bucket_name env base_url row ≠ Except.error RunError.indexError :=
  ⟨find_tags_ne_nil_of_image env url,
   process_row_no_indexError bucket_name env base_url row⟩

/-- Environment whose detail fetch always raises, used as a closed instance. -/
def wEnvC10 : Env :=
  { detail := fun _ => Except.error ()
    download := fun _ => Except.error ""
    put := fun _ => PutOutcome.failure "" }

/-- Witness for C10 at a concrete environment and row. -/
theorem C10_first_tag_safe_witness :
    process_row "b" wEnvC10 bulbapediaBase { cells := [], anchors := [] } ≠
      Except.error RunError.indexError :=
  (C10_first_tag_safe wEnvC10 "u" "b" bulbapediaBase { cells := [], anchors := [] }).2

/-- Environment whose detail fetch always raises, for the C3 instance. -/
def wEnvC3 : Env :=
  { detail := fun _ => Except.error ()
    download := fun _ => Except.error ""
    put := fun _ => PutOutcome.success }

/-- A well-formed data row pointing at `/x`, for the C3 instance. -/
def wRowC3 : Row :=
  { cells := ["1", "a", "b"], anchors := [{ href := some "/x", text := "N" }] }

/-- Claim C3: when the detail fetch raises, the extractor absorbs the
exception and returns exactly `(None, ["unknown"])`; the orchestrator then
takes the missing-image branch (a logged warning), the loop resumes with the
next row, and the success counter is unchanged. -/
theorem C3_detail_exception_absorbed (env : Env) (url bucket_name : String)
    (row : Row) (c : CreatureData) (st : RunStats) (limit : Nat) (rest : List Row)
    (hfetch : env.detail url = Except.error ())
    (hrow : extract_creature_data bulbapediaBase row = some c)
    (hurl : c.url = url)
    (hlt : st.count < limit) :
    find_creature_image_and_types env url = (none, ["unknown"])
    ∧ process_row bucket_name env bulbapediaBase row =
        Except.ok RowOutcome.skippedNoImage
    ∧ runRows bucket_name env limit (row :: rest) st =
        runRows bucket_name env limit rest (updateStats st RowOutcome.skippedNoImage)
    ∧ (updateStats st RowOutcome.skippedNoImage).count = st.count
    ∧ (updateStats st RowOutcome.skippedNoImage).warnings = st.warnings + 1 := by
  have hfind : find_creature_image_and_types env url = (none, ["unknown"]) := by
    unfold find_creature_image_and_types
    rw [hfetch]
  have hproc : process_row bucket_name env bulbapediaBase row =
      Except.ok RowOutcome.skippedNoImage := by
    unfold process_row
    simp only [hrow, hurl, hfind]
  have step : runRows bucket_name env limit (row :: rest) st =
      (if limit ≤ st.count then Except.ok { st with limitReached := true }
       else match process_row bucket_name env bulbapediaBase row with
         | Except.error e => Except.error e
         | Except.ok out => runRows bucket_name env limit rest (updateStats st out)) := rfl
  have hrun : runRows bucket_name env limit (row :: rest) st =
      runRows bucket_name env limit rest (updateStats st RowOutcome.skippedNoImage) := by
    rw [step, if_neg (by omega)]
    simp only [hproc]
  exact ⟨hfind, hproc, hrun, rfl, rfl⟩

/-- Witness for C3 at a concrete environment, row and state. -/
theorem C3_detail_exception_absorbed_witness :
    find_creature_image_and_types wEnvC3 "https://bulbapedia.bulbagarden.net/x" =
        (none, ["unknown"])
    ∧ process_row "b" wEnvC3 bulbapediaBase wRowC3 =
        Except.ok RowOutcome.skippedNoImage
    ∧ runRows "b" wEnvC3 1 [wRowC3] {} =
        runRows "b" wEnvC3 1 [] (updateStats {} RowOutcome.skippedNoImage)
    ∧ (updateStats ({} : RunStats) RowOutcome.skippedNoImage).count =
        ({} : RunStats).count
    ∧ (updateStats ({} : RunStats) RowOutcome.skippedNoImage).warnings =
        ({} : RunStats).warnings + 1 :=
  C3_detail_exception_absorbed wEnvC3 "https://bulbapedia.bulbagarden.net/x" "b"
    wRowC3
    { index := 1, name := "N", url := "https://bulbapedia.bulbagarden.net/x" }
    {} 1 [] rfl (by decide) rfl (by decide)

/-- Lower-casing never turns a non-empty string empty or vice versa. -/
theorem pyLower_bne_empty (s : String) : (pyLower s != "") = (s != "") := by
  cases s with
  | mk l =>
    cases l with
    | nil => rfl
    | cons c cs => rfl

/-- Following the spec's words (§4.3 step 5): the stripped, lower-cased
texts of the panel's type links, with empty strings excluded, in encounter
order, duplicates preserved. -/
def specTypeTags (t : TableNode) : List String :=
  ((t.anchors.filter (fun a => matchHrefWikiType a.href)).map
    (fun a => pyLower (get_text_strip a.text))).filter (fun s => s != "")

/-- The source's filter-then-map over type links equals the spec's
map-then-exclude-empties reading. -/
theorem strip_filter_map_comm (A : List Anchor) :
    (A.filter (fun a => get_text_strip a.text != "")).map
        (fun a => pyLower (get_text_strip a.text))
      = (A.map (fun a => pyLower (get_text_strip a.text))).filter
          (fun s => s != "") := by
  induction A with
  | nil => rfl
  | cons a as ih =>
    simp only [List.filter_cons, List.map_cons]
    rw [pyLower_bne_empty (get_text_strip a.text)]
    cases h : (get_text_strip a.text != "") with
    | true => simp [h, ih]
    | false => simp [h, ih]

/-- Claim C5: on a detail page that fetches without exception, no matching
info table gives `(None, [])`; a matching table gives exactly the spec's tag
sequence, with `["unknown"]` substituted when it is empty. -/
theorem C5_detail_tags (env : Env) (url : String) (doc : Document)
    (hfetch : env.detail url = Except.ok doc) :
    match doc.tables.find? (fun tb => matchClassAttr reInfoboxRoundy tb.classAttr) with
    | none => find_creature_image_and_types env url = (none, [])
    | some t => (find_creature_image_and_types env url).2 =
        (if specTypeTags t = [] then ["unknown"] else specTypeTags t) := by
  cases hfind : doc.tables.find? (fun tb => matchClassAttr reInfoboxRoundy tb.classAttr) with
  | none =>
    simp only []
    unfold find_creature_image_and_types
    rw [hfetch]
    simp only [hfind]
  | some t =>
    simp only []
    unfold find_creature_image_and_types
    rw [hfetch]
    simp only [hfind]
    rw [show specTypeTags t =
        ((t.anchors.filter (fun a => matchHrefWikiType a.href)).filter
          (fun a => get_text_strip a.text != "")).map
          (fun a => pyLower (get_text_strip a.text)) from
      (strip_filter_map_comm (t.anchors.filter (fun a => matchHrefWikiType a.href))).symm]
    cases he : ((t.anchors.filter (fun a => matchHrefWikiType a.href)).filter
        (fun a => get_text_strip a.text != "")).map
        (fun a => pyLower (get_text_strip a.text)) with
    | nil => simp [he]
    | cons x xs => simp [he]

/-- The detail page of the spec's C5 test: an info panel with two type
links labelled `Fire` and `fire`. -/
def wDetailDocC5 : Document :=
  { tables := [{ classAttr := some "infobox"
                 rows := []
                 imgs := []
                 anchors := [{ href := some "/wiki/Fire_type", text := "Fire" },
                             { href := some "/wiki/Fire_type", text := "fire" }] }] }

/-- Environment serving `wDetailDocC5` for every detail URL. -/
def wEnvC5 : Env :=
  { detail := fun _ => Except.ok wDetailDocC5
    download := fun _ => Except.error ""
    put := fun _ => PutOutcome.failure "" }

/-- Witness for C5: mixed-case links `Fire`, `fire` yield the lower-cased
tags `["fire", "fire"]`, duplicates and order preserved. -/
theorem C5_detail_tags_witness :
    (find_creature_image_and_types wEnvC5 "u").2 = ["fire", "fire"] := by
  have h := C5_detail_tags wEnvC5 "u" wDetailDocC5 rfl
  exact h

/-- Following the spec's §4.3 step 4, amended for the source's truthiness
test: the panel's first image, with `https:` prefixed to a
protocol-relative src, and `None` when the image is missing, has no src, or
has an empty src. -/
def specImageUrl (t : TableNode) : Option String :=
  match t.imgs.head? with
  | none => none
  | some img =>
    match img.src with
    | none => none
    | some src =>
      if src = "" then none
      else if pyStartsWith src "//" then some ("https:" ++ src)
      else some src

/-- Claim C6 (amended): on a detail page whose info panel was found, the
returned image URL is exactly `specImageUrl` of that panel. -/
theorem C6_image_url (env : Env) (url : String) (doc : Document) (t : TableNode)
    (hfetch : env.detail url = Except.ok doc)
    (hfind : doc.tables.find?
      (fun tb => matchClassAttr reInfoboxRoundy tb.classAttr) = some t) :
    (find_creature_image_and_types env url).1 = specImageUrl t := by
  unfold find_creature_image_and_types specImageUrl
  rw [hfetch]
  simp only [hfind]

/-- The info panel of the C6 counterexample: its image has the empty string
as its `src` attribute. -/
def cexTableC6 : TableNode :=
  { classAttr := some "infobox", rows := [], imgs := [{ src := some "" }],
    anchors := [] }

/-- Environment serving the C6 counterexample page. -/
def cexEnvC6 : Env :=
  { detail := fun _ => Except.ok { tables := [cexTableC6] }
    download := fun _ => Except.error ""
    put := fun _ => PutOutcome.failure "" }

/-- Counterexample to C6 as stated: the panel's first image has a src
attribute (the empty string) that does not start with `//`, so the claim
says the src is returned as-is; the source's truthiness test makes the
returned image URL `None` instead. -/
theorem C6_counterexample :
    cexTableC6.imgs.head? = some { src := some "" }
    ∧ pyStartsWith "" "//" = false
    ∧ (find_creature_image_and_types cexEnvC6 "u").1 = none
    ∧ (find_creature_image_and_types cexEnvC6 "u").1 ≠ some "" :=
  ⟨rfl, rfl, rfl, by decide⟩

/-- The info panel of the spec's C6 test, with a protocol-relative src. -/
def wTableC6 : TableNode :=
  { classAttr := some "roundy", rows := [],
    imgs := [{ src := some "//example.com/a.png" }], anchors := [] }

/-- Environment serving the C6 witness page. -/
def wEnvC6 : Env :=
  { detail := fun _ => Except.ok { tables := [wTableC6] }
    download := fun _ => Except.error ""
    put := fun _ => PutOutcome.failure "" }

/-- Witness for the amended C6 at the spec's test: src `//example.com/a.png`
resolves to `https://example.com/a.png`. -/
theorem C6_image_url_witness :
    (find_creature_image_and_types wEnvC6 "u").1 = specImageUrl wTableC6
    ∧ specImageUrl wTableC6 = some "https://example.com/a.png" :=
  ⟨C6_image_url wEnvC6 "u" { tables := [wTableC6] } wTableC6 rfl rfl, by decide⟩

/-- Whether a row produces an entity whose detail lookup yields an image
URL, i.e. whether the loop body for this row runs past both `continue`
statements into the download/upload stage. -/
def rowHasEntityAndImage (env : Env) (base_url : String) (row : Row) : Bool :=
  match extract_creature_data base_url row with
  | none => false
  | some c => (find_creature_image_and_types env c.url).1.isSome

/-- One table whose only row is not a data row, for the C1 counterexample. -/
def cexDocC1 : Document :=
  { tables := [{ classAttr := some "roundy"
                 rows := [{ cells := [], anchors := [] }]
                 imgs := []
                 anchors := [] }] }

/-- Environment for the C1 counterexample (its contents are never reached). -/
def cexEnvC1 : Env :=
  { detail := fun _ => Except.error ()
    download := fun _ => Except.error ""
    put := fun _ => PutOutcome.failure "" }

/-- Counterexample to C1 as stated: a run that visits exactly one row — a
row skipped because `extract_creature_data` returned `None` — performs zero
sleeps, because `continue` jumps over the `time.sleep` at the end of the
loop body; so the number of sleeps does not equal the number of visited
rows. -/
theorem C1_counterexample :
    (collect_data "b" cexEnvC1 (Except.ok cexDocC1) 100).map
        (fun st => (st.rowsVisited, st.sleeps)) = Except.ok (1, 0)
    ∧ (1 : Nat) ≠ 0 :=
  ⟨rfl, by decide⟩

/-- Claim C1 (amended): every visited row increments the visit count, but
the fixed inter-row delay runs exactly for the rows that yield an entity
and an image URL (the download/upload stage), regardless of download or
upload outcome; rows skipped by either `continue` perform no sleep. -/
theorem C1_sleep_iff_reaches_download (bucket_name base_url : String)
    (env : Env) (row : Row) (st : RunStats) (out : RowOutcome)
    (h : process_row bucket_name env base_url row = Except.ok out) :
    (updateStats st out).rowsVisited = st.rowsVisited + 1
    ∧ ((updateStats st out).sleeps = st.sleeps + 1 ↔
        rowHasEntityAndImage env base_url row = true) := by
  unfold process_row at h
  unfold rowHasEntityAndImage
  cases hex : extract_creature_data base_url row with
  | none =>
    rw [hex] at h
    simp only [] at h
    injection h with h2
    subst h2
    refine ⟨rfl, ?_⟩
    simp [updateStats]
  | some creature =>
    rw [hex] at h
    simp only [] at h
    cases hfind : find_creature_image_and_types env creature.url with
    | mk iu ts =>
      rw [hfind] at h
      cases iu with
      | none =>
        simp only [] at h
        injection h with h2
        subst h2
        refine ⟨rfl, ?_⟩
        simp only [hfind]
        simp [updateStats]
      | some s =>
        cases ts with
        | nil => simp only [] at h; cases h
        | cons t0 trest =>
          simp only [] at h
          cases hdl : env.download s with
          | error e =>
            rw [hdl] at h
            injection h with h2
            subst h2
            refine ⟨rfl, ?_⟩
            simp only [hfind]
            simp [updateStats]
          | ok image_data =>
            rw [hdl] at h
            simp only [] at h
            cases hup : (upload_image bucket_name env.put image_data
                (pad4 creature.index ++ "_" ++ creature.name ++
                  (if (splitext (urlparse_path s)).2 = "" then ".png"
                   else (splitext (urlparse_path s)).2))
                ("images/" ++ t0 ++ "/")).2 with
            | none =>
              rw [hup] at h
              injection h with h2
              subst h2
              refine ⟨rfl, ?_⟩
              simp only [hfind]
              simp [updateStats]
            | some u =>
              rw [hup] at h
              injection h with h2
              subst h2
              refine ⟨rfl, ?_⟩
              simp only [hfind]
              simp [updateStats]

/-- A detail page with an info panel, an image, and one type link, serving
every detail URL of the C1/C2 witness environments. -/
def wDetailDocFull : Document :=
  { tables := [{ classAttr := some "roundy infobox"
                 rows := []
                 imgs := [{ src := some "//img.net/a.png" }]
                 anchors := [{ href := some "/wiki/Fire_type", text := " Fire " }] }] }

/-- Environment in which every row downloads and uploads successfully. -/
def wEnvFull : Env :=
  { detail := fun _ => Except.ok wDetailDocFull
    download := fun _ => Except.ok []
    put := fun _ => PutOutcome.success }

/-- A fully valid data row. -/
def wRowFull : Row :=
  { cells := ["#0001", "x", "y"],
    anchors := [{ href := some "/wiki/Bulba", text := "Bulba" }] }

/-- Witness for the amended C1 at a fully successful row. -/
theorem C1_sleep_iff_reaches_download_witness :
    (updateStats {} RowOutcome.uploaded).rowsVisited = ({} : RunStats).rowsVisited + 1
    ∧ ((updateStats {} RowOutcome.uploaded).sleeps = ({} : RunStats).sleeps + 1 ↔
        rowHasEntityAndImage wEnvFull bulbapediaBase wRowFull = true) :=
  C1_sleep_iff_reaches_download "b" bulbapediaBase wEnvFull wRowFull {}
    RowOutcome.uploaded (by decide)

/-- Unfolding of `totalRows` over a cons. -/
theorem totalRows_cons (t : TableNode) (rest : List TableNode) :
    totalRows (t :: rest) = t.rows.length + totalRows rest := by
  simp [totalRows]

/-- Inner-loop accounting when every row of the list uploads successfully:
the run advances `min (limit - count) (number of rows)` rows, adding one
visit, one sleep, one attempt and one success each, and flags `limitReached`
exactly when a row was still pending past the limit. -/
theorem runRows_all_uploaded (bucket_name : String) (env : Env) (limit : Nat)
    (rows : List Row) :
    ∀ st : RunStats,
      (∀ r ∈ rows, process_row bucket_name env bulbapediaBase r =
        Except.ok RowOutcome.uploaded) →
      st.count ≤ limit → st.limitReached = false →
      runRows bucket_name env limit rows st = Except.ok
        { rowsVisited := st.rowsVisited + min (limit - st.count) rows.length
          sleeps := st.sleeps + min (limit - st.count) rows.length
          warnings := st.warnings
          attempts := st.attempts + min (limit - st.count) rows.length
          count := st.count + min (limit - st.count) rows.length
          limitReached := decide (limit < st.count + rows.length) } := by
  induction rows with
  | nil =>
    intro st hup hle hlr
    have hdec : decide (limit < st.count) = false := by
      simp only [decide_eq_false_iff_not]
      omega
    simp only [runRows, List.length_nil, Nat.min_zero, Nat.add_zero, hdec]
    rw [← hlr]
  | cons row rest ih =>
    intro st hup hle hlr
    by_cases hl : limit ≤ st.count
    · have hceq : st.count = limit := Nat.le_antisymm hle hl
      have hmin : min (limit - st.count) (row :: rest).length = 0 := by
        simp [hceq]
      have hdec : decide (limit < st.count + (row :: rest).length) = true := by
        simp only [decide_eq_true_eq, List.length_cons]
        omega
      simp only [runRows, if_pos hl, hmin, hdec, Nat.add_zero]
    · have hproc := hup row (List.mem_cons_self row rest)
      have hlt : st.count < limit := by omega
      simp only [runRows, if_neg hl, hproc]
      rw [ih (updateStats st RowOutcome.uploaded)
        (fun r hr => hup r (List.mem_cons_of_mem row hr))
        (by simp [updateStats]; omega)
        (by simp [updateStats, hlr])]
      simp only [updateStats, List.length_cons, Except.ok.injEq,
        RunStats.mk.injEq, decide_eq_decide, true_and, and_true]
      omega

/-- Outer-loop accounting when every row of every table uploads
successfully: the success and attempt counters both advance by
`min limit (total rows)`, with the limit acting globally across tables. -/
theorem runTables_all_uploaded (bucket_name : String) (env : Env) (limit : Nat)
    (tables : List TableNode) :
    ∀ st : RunStats,
      (∀ t ∈ tables, ∀ r ∈ t.rows, process_row bucket_name env bulbapediaBase r =
        Except.ok RowOutcome.uploaded) →
      st.count ≤ limit → st.limitReached = false →
      ∃ st2, runTables bucket_name env limit tables st = Except.ok st2
        ∧ st2.count = st.count + min (limit - st.count) (totalRows tables)
        ∧ st2.attempts = st.attempts + min (limit - st.count) (totalRows tables) := by
  induction tables with
  | nil =>
    intro st hup hle hlr
    refine ⟨st, rfl, ?_, ?_⟩ <;> simp [totalRows]
  | cons t rest ih =>
    intro st hup hle hlr
    have h1 := runRows_all_uploaded bucket_name env limit t.rows st
      (fun r hr => hup t (List.mem_cons_self t rest) r hr) hle hlr
    by_cases hfire : limit < st.count + t.rows.length
    · have hdec : decide (limit < st.count + t.rows.length) = true := by
        simp only [decide_eq_true_eq]
        exact hfire
      simp only [runTables, h1, hdec, if_true]
      refine ⟨_, rfl, ?_, ?_⟩ <;>
        (simp only [totalRows_cons]; omega)
    · have hdec : decide (limit < st.count + t.rows.length) = false := by
        simp only [decide_eq_false_iff_not]
        exact hfire
      simp only [runTables, h1, hdec, if_false]
      obtain ⟨st3, hrun3, hc3, ha3⟩ := ih
        { rowsVisited := st.rowsVisited + min (limit - st.count) t.rows.length
          sleeps := st.sleeps + min (limit - st.count) t.rows.length
          warnings := st.warnings
          attempts := st.attempts + min (limit - st.count) t.rows.length
          count := st.count + min (limit - st.count) t.rows.length
          limitReached := false }
        (fun tb htb r hr => hup tb (List.mem_cons_of_mem t htb) r hr)
        (by simp only []; omega) rfl
      refine ⟨st3, hrun3, ?_, ?_⟩
      · simp only [] at hc3
        simp only [totalRows_cons]
        omega
      · simp only [] at ha3 hc3
        simp only [totalRows_cons]
        omega

/-- Claim C2: when the selected tables hold at least `limit` rows and every
row yields an entity, an image URL, a successful download and a successful
upload, the run ends with exactly `limit` successes and exactly `limit`
upload attempts — the count is global across tables and reaching it stops
the whole run. -/
theorem C2_global_limit (bucket_name : String) (env : Env) (doc : Document)
    (limit : Nat)
    (hup : ∀ t ∈ selectedTables doc, ∀ r ∈ t.rows,
      process_row bucket_name env bulbapediaBase r = Except.ok RowOutcome.uploaded)
    (hlen : limit ≤ totalRows (selectedTables doc)) :
    (collect_data bucket_name env (Except.ok doc) limit).map
      (fun st => (st.count, st.attempts)) = Except.ok (limit, limit) := by
  obtain ⟨st2, hrun, hc, ha⟩ := runTables_all_uploaded bucket_name env limit
    (selectedTables doc) {} hup (Nat.zero_le limit) rfl
  unfold collect_data
  simp only [hrun, Except.map, Except.ok.injEq, Prod.mk.injEq]
  constructor
  · rw [hc]
    simp only []
    omega
  · rw [ha]
    simp only []
    omega

/-- The five fully valid rows of the spec's C2 test, spread over a `roundy`
table and a `sortable` table. -/
def wDocC2 : Document :=
  { tables := [{ classAttr := some "roundy", rows := [wRowFull, wRowFull, wRowFull],
                 imgs := [], anchors := [] },
               { classAttr := some "sortable", rows := [wRowFull, wRowFull],
                 imgs := [], anchors := [] }] }

/-- Witness for C2: `limit = 2` over 5 valid, uploadable rows gives exactly
2 successes and 2 upload attempts. -/
theorem C2_global_limit_witness :
    (collect_data "b" wEnvFull (Except.ok wDocC2) 2).map
      (fun st => (st.count, st.attempts)) = Except.ok (2, 2) :=
  C2_global_limit "b" wEnvFull wDocC2 2 (by decide) (by decide)

/-- Witness for C4: a cell-less row is rejected. -/
theorem C4_extract_none_iff_witness :
    extract_creature_data bulbapediaBase { cells := [], anchors := [] } = none :=
  (C4_extract_none_iff bulbapediaBase { cells := [], anchors := [] }).mpr
    (Or.inl (by decide))

/-- Witness for C9 at a client that reports missing credentials. -/
theorem C9_upload_total_witness :
    (upload_image "b" (fun _ => PutOutcome.noCredentials) [] "f.png" "p/").2.isSome = true ↔
      (fun _ => PutOutcome.noCredentials)
        (upload_image "b" (fun _ => PutOutcome.noCredentials) [] "f.png" "p/").1 =
        PutOutcome.success :=
  C9_upload_total "b" (fun _ => PutOutcome.noCredentials) [] "f.png" "p/"
